import Mathlib

/-!
Shallow embedding of `re_xsr1d.py`: reconstruction of a linearly addressed
storage image from a raw dump of an XSR1d flash translation layer region.

Bytes are modelled as `List Nat`; Python's byte strings, negative-index
slicing, `bytes.find` and `int.from_bytes` are modelled by the `py*`
helpers below.  Offsets are `Int` because Python's `bytes.find` returns
`-1` on failure and the source feeds that value onward unchecked.
-/

/-- Clamp a Python slice bound (possibly negative) to an absolute position in a
buffer of length `n`, following Python's slicing rules. -/
def pyIdx (n : Nat) (i : Int) : Nat :=
  if i < 0 then ((n : Int) + i).toNat else min i.toNat n

/-- Python slice `data[a:b]`. -/
def pySlice (data : List Nat) (a b : Int) : List Nat :=
  (data.take (pyIdx data.length b)).drop (pyIdx data.length a)

/-- Python `int.from_bytes(l, 'little')`. -/
def intFromBytesLE (l : List Nat) : Nat :=
  l.foldr (fun x acc => x + 256 * acc) 0

/-- Python `data.find(sig)` as an `Option`: index of the first occurrence of
`sig` in `data`, `none` when absent. -/
def pyFindAux (sig : List Nat) : List Nat → Option Nat
  | [] => if sig.isEmpty then some 0 else none
  | x :: rest =>
    if sig.isPrefixOf (x :: rest) then some 0
    else (pyFindAux sig rest).map (· + 1)

/-- Block metadata parsed from the first page of a block
(class `XSR1dBlockInfo` in the source). -/
structure XSR1dBlockInfo where
  block_number : Nat
  block_version : Nat
  block_start : Int
deriving DecidableEq

/-- `XSR1dBlockInfo.parse(first_page, block_start)`:
bytes 16..19 are the block version, bytes 20..23 the block number,
both little endian. -/
def XSR1dBlockInfo.parse (first_page : List Nat) (block_start : Int) : XSR1dBlockInfo :=
  { block_version := intFromBytesLE (pySlice first_page 16 20)
    block_number := intFromBytesLE (pySlice first_page 20 24)
    block_start := block_start }

/-- Per-sector metadata (class `XSR1dSectorInfo` in the source). -/
structure XSR1dSectorInfo where
  lsn : Nat
  block_info : XSR1dBlockInfo
  sector_start : Int
deriving DecidableEq

namespace XSR1dSectorInfo

def SECTOR_SIZE : Nat := 512

def SECTOR_SPARE_SIZE : Nat := 16

/-- `XSR1dSectorInfo._parse_single(sector_oob, block_info, sector_start)`:
skip when the 3-byte tag `sector_oob[2:5]` is the all-0xFF sentinel, skip the
first sector of the block, otherwise emit a record with the decoded LSN. -/
def parse_single (sector_oob : List Nat) (block_info : XSR1dBlockInfo)
    (sector_start : Int) : Option XSR1dSectorInfo :=
  let lsn_bytes := pySlice sector_oob 2 5
  if lsn_bytes = [0xFF, 0xFF, 0xFF] then none
  else if sector_start = block_info.block_start then none
  else some ⟨intFromBytesLE lsn_bytes, block_info, sector_start⟩

/-- `XSR1dSectorInfo.parse_page(spare_bytes, block_info, page_start)`:
the four 16-byte tag slices of one page's spare region, each paired with its
sector's start offset; `None` results are dropped. -/
def parse_page (spare_bytes : List Nat) (block_info : XSR1dBlockInfo)
    (page_start : Int) : List XSR1dSectorInfo :=
  (List.range 4).filterMap fun (i : Nat) =>
    parse_single
      (pySlice spare_bytes ((i : Int) * (SECTOR_SPARE_SIZE : Int))
        ((i : Int) * (SECTOR_SPARE_SIZE : Int) + (SECTOR_SPARE_SIZE : Int)))
      block_info
      (page_start + (i : Int) * (SECTOR_SIZE : Int))

end XSR1dSectorInfo

namespace XSR1d

def SECTOR_SIZE : Nat := 0x200

def PAGE_SIZE : Nat := 0x800

def OOB_SIZE : Nat := 0x40

def BLOCK_SIZE : Nat := 64

/-- `XSR1d.find_start(data)`: Python's `data.find(b'XSR1d')`, which is `-1`
when the signature is absent. -/
def find_start (data : List Nat) : Int :=
  match pyFindAux [0x58, 0x53, 0x52, 0x31, 0x64] data with
  | some i => (i : Nat)
  | none => -1

/-- `XSR1d.parse_next_block(data, block_start)`: parse the block header from
the first page, then run the tag parser on the spare region of each of the
`BLOCK_SIZE` page+spare units, starting with the first page itself. -/
def parse_next_block (data : List Nat) (block_start : Int) : List XSR1dSectorInfo :=
  let block_info :=
    XSR1dBlockInfo.parse (pySlice data block_start (block_start + (PAGE_SIZE : Int))) block_start
  (List.range BLOCK_SIZE).flatMap fun (i : Nat) =>
    let page_start := block_start + (i : Int) * ((PAGE_SIZE : Int) + (OOB_SIZE : Int))
    let page_end := page_start + (PAGE_SIZE : Int)
    XSR1dSectorInfo.parse_page (pySlice data page_end (page_end + (OOB_SIZE : Int)))
      block_info page_start

/-- `XSR1d.read_metadata(data)`: locate the signature, compute the number of
whole blocks that fit after it, and concatenate every block's records. -/
def read_metadata (data : List Nat) : List XSR1dSectorInfo :=
  (List.range (((data.length : Int) - find_start data).toNat /
      (BLOCK_SIZE * (PAGE_SIZE + OOB_SIZE)))).flatMap
    fun (i : Nat) =>
      parse_next_block data
        (find_start data + (i : Int) * ((BLOCK_SIZE : Int) * ((PAGE_SIZE : Int) + (OOB_SIZE : Int))))

/-- One iteration of the loop body of `XSR1d.build_sector_map`: grow the map
with `None` entries until the record's LSN is in range, then start or extend
the candidate list at that LSN. -/
def bsmStep (sector_map : List (Option (List XSR1dSectorInfo))) (s : XSR1dSectorInfo) :
    List (Option (List XSR1dSectorInfo)) :=
  let m := if sector_map.length ≤ s.lsn
    then sector_map ++ List.replicate (s.lsn - sector_map.length + 1) none
    else sector_map
  m.set s.lsn (match m.getD s.lsn none with
    | none => some [s]
    | some l => some (l ++ [s]))

/-- `XSR1d.build_sector_map(sectors)`. -/
def build_sector_map (sectors : List XSR1dSectorInfo) : List (Option (List XSR1dSectorInfo)) :=
  sectors.foldl bsmStep []

/-- Sort key used by `XSR1d.rearrange_data`:
`lambda x: (x.block_info.block_version, x.sector_start)`. -/
def skey (x : XSR1dSectorInfo) : Nat × Int :=
  (x.block_info.block_version, x.sector_start)

/-- Lexicographic order on sort keys (Python tuple comparison). -/
def keyLt (a b : Nat × Int) : Prop :=
  a.1 < b.1 ∨ (a.1 = b.1 ∧ a.2 < b.2)

instance (a b : Nat × Int) : Decidable (keyLt a b) := by
  unfold keyLt; infer_instance

/-- Non-strict key order between records. -/
def keyLe (a b : XSR1dSectorInfo) : Prop := ¬ keyLt (skey b) (skey a)

instance (a b : XSR1dSectorInfo) : Decidable (keyLe a b) := by
  unfold keyLe; infer_instance

instance : IsTotal XSR1dSectorInfo keyLe :=
  ⟨fun a b => by
    by_cases h : keyLt (skey b) (skey a)
    · right
      rcases h with h | ⟨h1, h2⟩ <;> · unfold keyLe keyLt; omega
    · exact Or.inl h⟩

instance : IsTrans XSR1dSectorInfo keyLe :=
  ⟨fun a b c hab hbc => by
    unfold keyLe keyLt at *
    omega⟩

/-- Python's `sorted(sector_infos, key=...)` is a stable sort; modelled by
insertion sort, which is stable for `keyLe`. -/
def sortByKey (l : List XSR1dSectorInfo) : List XSR1dSectorInfo :=
  List.insertionSort keyLe l

/-- Bytes contributed to the output by one slot of the sector map, as in the
loop body of `XSR1d.rearrange_data`: a `None` slot yields a filler sector of
0xFF bytes, an occupied slot yields `data[start:start+512]` for the first
record of the slot sorted by `skey`.  (On an empty candidate list the Python
`sorted(...)[0]` would raise `IndexError`; `build_sector_map` never produces
an empty candidate list, and this model returns `[]` in that unreachable
case.) -/
def slotBytes (data : List Nat) : Option (List XSR1dSectorInfo) → List Nat
  | none => List.replicate SECTOR_SIZE 0xFF
  | some sector_infos =>
    match sortByKey sector_infos with
    | [] => []
    | w :: _ => pySlice data w.sector_start (w.sector_start + (SECTOR_SIZE : Int))

/-- `XSR1d.rearrange_data(data, sector_map)`: concatenate every slot's bytes
in LSN order. -/
def rearrange_data (data : List Nat) (sector_map : List (Option (List XSR1dSectorInfo))) :
    List Nat :=
  (sector_map.map (slotBytes data)).flatten

/-- `XSR1d.reconstruct(data)` / `XSR1d._reconstruct(data)`. -/
def reconstruct (data : List Nat) : List Nat :=
  rearrange_data data (build_sector_map (read_metadata data))

end XSR1d

/-- Highest logical sector number appearing in a record list (0 when the list
is empty). -/
def maxLsn (sectors : List XSR1dSectorInfo) : Nat :=
  sectors.foldl (fun n r => max n r.lsn) 0

/-- Length of the sector map built by `XSR1d.build_sector_map`. -/
def buildLen (sectors : List XSR1dSectorInfo) : Nat :=
  sectors.foldl (fun n r => max n (r.lsn + 1)) 0

/-- Every record's 512-byte source range lies inside the data buffer.  The
scanner only emits such records (see `read_metadata_in_bounds`). -/
def InBounds (data : List Nat) (sectors : List XSR1dSectorInfo) : Prop :=
  ∀ r ∈ sectors, 0 ≤ r.sector_start ∧ r.sector_start + 512 ≤ (data.length : Int)

instance (data : List Nat) (sectors : List XSR1dSectorInfo) : Decidable (InBounds data sectors) := by
  unfold InBounds; infer_instance

/-- Input for the version-preference analysis: byte 9 followed by 512 copies
of byte 5, so the slice at offset 0 and the slice at offset 1 differ. -/
def c1data : List Nat := 9 :: List.replicate 512 5

/-- LSN-0 record owned by a block with version 1, at physical offset 0. -/
def c1r1 : XSR1dSectorInfo := ⟨0, ⟨0, 1, 700⟩, 0⟩

/-- LSN-0 record owned by a block with version 2, at physical offset 1. -/
def c1r2 : XSR1dSectorInfo := ⟨0, ⟨1, 2, 800⟩, 1⟩

/-- Input for the overrun analysis: 100 bytes, shorter than one sector. -/
def c3data : List Nat := List.replicate 100 7

/-- A minimal well-formed dump: the 5-byte signature followed by zero bytes,
one whole block in total (135168 bytes). -/
def c4data : List Nat := [0x58, 0x53, 0x52, 0x31, 0x64] ++ List.replicate 135163 0

/-- LSN-0 record whose 512-byte source range [0, 512) overruns `c3data`. -/
def c3rec : XSR1dSectorInfo := ⟨0, ⟨0, 0, 999⟩, 0⟩


set_option maxRecDepth 4000 in
/-- C1: the claim that among multiple candidates for an LSN the emitted sector
is the one from the block with the highest version fails on the code: with a
version-1 candidate at offset 0 and a version-2 candidate at offset 1,
`rearrange_data` emits the bytes of the version-1 candidate (`sorted(...)` is
ascending and the code takes index 0), not the version-2 copy, contradicting
the docstring of `build_sector_map` in the source. -/
theorem C1_highest_version_fails_on_code :
    XSR1d.rearrange_data c1data (XSR1d.build_sector_map [c1r1, c1r2]) =
      9 :: List.replicate 511 5
    ∧ pySlice c1data 1 513 = List.replicate 512 5
    ∧ XSR1d.rearrange_data c1data (XSR1d.build_sector_map [c1r1, c1r2]) ≠
      List.replicate 512 5 := by
  decide

/-- C2: the claim that a missing signature fails reconstruction is wrong on
the code: `bytes.find` returns `-1`, the code never checks it, and on a
3-byte input reconstruction completes normally and returns an empty buffer
instead of failing. -/
theorem C2_no_signature_no_failure :
    XSR1d.find_start [0, 0, 0] = -1 ∧ XSR1d.reconstruct [0, 0, 0] = [] := by
  decide

/-- C3 counterexample: when the winning record's byte range overruns the input
buffer the code emits only the available bytes (here 100 of them) and does not
pad the sector to 512 bytes, so the emitted sector is not "exactly 512 bytes"
as claimed. -/
theorem C3_no_padding_counterexample :
    XSR1d.rearrange_data c3data (XSR1d.build_sector_map [c3rec]) = List.replicate 100 7
    ∧ (XSR1d.rearrange_data c3data (XSR1d.build_sector_map [c3rec])).length ≠ 512 := by
  decide

/-- C6 counterexample: `parse_next_block` produces a record with physical
offset 512, inside the first (header) page `[0, 2048)` of the block; every
page after the first starts at offset 2112, so this record originates from
the spare region of the first page, contrary to the claim. -/
theorem C6_first_page_spare_counterexample :
    (⟨0, ⟨0, 0, 0⟩, 512⟩ : XSR1dSectorInfo) ∈ XSR1d.parse_next_block [] 0 := by
  decide

/-! Supporting lemmas about the Python-slicing model. -/

theorem pySlice_sublist (data : List Nat) (a b : Int) : (pySlice data a b).Sublist data :=
  ((List.drop_sublist _ _).trans (List.take_sublist _ _))

theorem pyIdx_of_nonneg (n : Nat) (i : Int) (h : 0 ≤ i) : pyIdx n i = min i.toNat n := by
  unfold pyIdx
  rw [if_neg (by omega)]

theorem pySlice_sector (data : List Nat) (a : Int) (h0 : 0 ≤ a)
    (hb : a + 512 ≤ (data.length : Int)) :
    pySlice data a (a + 512) = (data.drop a.toNat).take 512 := by
  unfold pySlice
  rw [pyIdx_of_nonneg _ _ h0, pyIdx_of_nonneg _ _ (by omega)]
  have h1 : min a.toNat data.length = a.toNat := by omega
  have h2 : min (a + 512).toNat data.length = (a + 512).toNat := by omega
  rw [h1, h2, List.drop_take]
  congr 1
  omega

theorem pySlice_sector_length (data : List Nat) (a : Int) (h0 : 0 ≤ a)
    (hb : a + 512 ≤ (data.length : Int)) :
    (pySlice data a (a + 512)).length = 512 := by
  rw [pySlice_sector data a h0 hb, List.length_take, List.length_drop]
  omega

theorem pySlice_eq_drop (data : List Nat) (a b : Int) (h0 : 0 ≤ a)
    (hb : (data.length : Int) ≤ b) :
    pySlice data a b = data.drop a.toNat := by
  unfold pySlice
  rw [pyIdx_of_nonneg _ _ h0, pyIdx_of_nonneg _ _ (by omega)]
  have h2 : min b.toNat data.length = data.length := by omega
  rw [h2, List.take_length]
  rcases Nat.le_total a.toNat data.length with h | h
  · rw [Nat.min_eq_left h]
  · rw [Nat.min_eq_right h, List.drop_eq_nil_of_le h, List.drop_eq_nil_of_le (by omega)]

/-! Positional lemmas about flattening fixed-width slots. -/

theorem flatten_map_length {α : Type} (f : α → List Nat) (m : List α)
    (h : ∀ x ∈ m, (f x).length = 512) :
    ((m.map f).flatten).length = 512 * m.length := by
  induction m with
  | nil => simp
  | cons x t ih =>
    simp only [List.map_cons, List.flatten_cons, List.length_append, List.length_cons]
    rw [h x (List.mem_cons_self x t), ih (fun y hy => h y (List.mem_cons_of_mem x hy))]
    ring

theorem flatten_map_pos {α : Type} (f : α → List Nat) (m : List α) (d : α) (j : Nat)
    (h : ∀ x ∈ m, (f x).length = 512) (hj : j < m.length) :
    (((m.map f).flatten).drop (512 * j)).take 512 = f (m.getD j d) := by
  induction m generalizing j with
  | nil => simp at hj
  | cons x t ih =>
    have hx : (f x).length = 512 := h x (List.mem_cons_self x t)
    cases j with
    | zero =>
      simp only [Nat.mul_zero, List.drop_zero, List.map_cons, List.flatten_cons, List.getD]
      rw [List.take_append_eq_append_take, hx, List.take_of_length_le (le_of_eq hx)]
      simp
    | succ k =>
      simp only [List.map_cons, List.flatten_cons, List.getD]
      rw [List.drop_append_eq_append_drop, hx]
      have h1 : 512 * (k + 1) - 512 = 512 * k := by ring_nf; omega
      have h2 : List.drop (512 * (k + 1)) (f x) = [] :=
        List.drop_eq_nil_of_le (by omega)
      rw [h2, h1, List.nil_append]
      exact ih k (fun y hy => h y (List.mem_cons_of_mem x hy)) (by simpa using hj)

/-! Characterization of `build_sector_map`: slot `j` holds exactly the records
with LSN `j`, in arrival order, and the map length is one more than the
largest observed LSN. -/

theorem getD_append_replicate_none (m : List (Option (List XSR1dSectorInfo))) (k j : Nat) :
    (m ++ List.replicate k none).getD j none = m.getD j none := by
  rw [List.getD_eq_getElem?_getD, List.getD_eq_getElem?_getD]
  by_cases h : j < m.length
  · rw [List.getElem?_append_left h]
  · have hm : m[j]? = none := List.getElem?_eq_none (by omega)
    rw [List.getElem?_append_right (by omega), hm, List.getElem?_replicate]
    split <;> rfl

theorem bsmStep_length (m : List (Option (List XSR1dSectorInfo))) (s : XSR1dSectorInfo) :
    (XSR1d.bsmStep m s).length = max m.length (s.lsn + 1) := by
  by_cases h : m.length ≤ s.lsn
  · simp only [XSR1d.bsmStep, if_pos h, List.length_set, List.length_append,
      List.length_replicate]
    omega
  · simp only [XSR1d.bsmStep, if_neg h, List.length_set]
    omega

theorem bsmStep_getD (m : List (Option (List XSR1dSectorInfo))) (s : XSR1dSectorInfo) (j : Nat) :
    (XSR1d.bsmStep m s).getD j none =
      if j = s.lsn then some ((m.getD j none).getD [] ++ [s]) else m.getD j none := by
  have key : ∀ (m' : List (Option (List XSR1dSectorInfo))), s.lsn < m'.length →
      (∀ i, m'.getD i none = m.getD i none) →
      (m'.set s.lsn (match m'.getD s.lsn none with
        | none => some [s]
        | some l => some (l ++ [s]))).getD j none =
      if j = s.lsn then some ((m.getD j none).getD [] ++ [s]) else m.getD j none := by
    intro m' hlen hsame
    by_cases hj : j = s.lsn
    · subst hj
      rw [List.getD_eq_getElem?_getD, List.getElem?_set_self (by simpa using hlen),
        if_pos rfl, hsame s.lsn]
      cases m.getD s.lsn none <;> rfl
    · rw [List.getD_eq_getElem?_getD, List.getElem?_set_ne (fun h => hj h.symm),
        ← List.getD_eq_getElem?_getD, hsame j, if_neg hj]
  simp only [XSR1d.bsmStep]
  by_cases h : m.length ≤ s.lsn
  · rw [if_pos h]
    exact key _ (by simp only [List.length_append, List.length_replicate]; omega)
      (fun i => getD_append_replicate_none m _ i)
  · rw [if_neg h]
    exact key _ (by omega) (fun i => rfl)

theorem bsm_fold_getD (sectors : List XSR1dSectorInfo)
    (m : List (Option (List XSR1dSectorInfo))) (j : Nat) :
    (sectors.foldl XSR1d.bsmStep m).getD j none =
      (if sectors.filter (fun r => r.lsn == j) = [] then m.getD j none
       else some ((m.getD j none).getD [] ++ sectors.filter (fun r => r.lsn == j))) := by
  induction sectors generalizing m with
  | nil => simp
  | cons s t ih =>
    rw [List.foldl_cons, ih (XSR1d.bsmStep m s)]
    by_cases hs : j = s.lsn
    · have hg : (XSR1d.bsmStep m s).getD j none =
          some ((m.getD j none).getD [] ++ [s]) := by
        rw [bsmStep_getD, if_pos hs]
      have hfil : (s :: t).filter (fun r => r.lsn == j) =
          s :: t.filter (fun r => r.lsn == j) := by
        simp [List.filter_cons, hs]
      have hne : s :: t.filter (fun r => r.lsn == j) ≠ [] := List.cons_ne_nil _ _
      rw [hg, hfil]
      by_cases ht : t.filter (fun r => r.lsn == j) = []
      · rw [if_pos ht, if_neg hne, ht]
      · rw [if_neg ht, if_neg hne]
        simp
    · have hg : (XSR1d.bsmStep m s).getD j none = m.getD j none := by
        rw [bsmStep_getD, if_neg hs]
      have hb : (s.lsn == j) = false := beq_eq_false_iff_ne.mpr (fun h => hs h.symm)
      have hfil : (s :: t).filter (fun r => r.lsn == j) =
          t.filter (fun r => r.lsn == j) := by
        simp [List.filter_cons, hb]
      rw [hg, hfil]

theorem bsm_getD (sectors : List XSR1dSectorInfo) (j : Nat) :
    (XSR1d.build_sector_map sectors).getD j none =
      (if sectors.filter (fun r => r.lsn == j) = [] then none
       else some (sectors.filter (fun r => r.lsn == j))) := by
  unfold XSR1d.build_sector_map
  rw [bsm_fold_getD]
  simp

theorem bsm_fold_length (sectors : List XSR1dSectorInfo)
    (m : List (Option (List XSR1dSectorInfo))) :
    (sectors.foldl XSR1d.bsmStep m).length =
      sectors.foldl (fun n r => max n (r.lsn + 1)) m.length := by
  induction sectors generalizing m with
  | nil => rfl
  | cons s t ih => rw [List.foldl_cons, ih, bsmStep_length, List.foldl_cons]

theorem bsm_length (sectors : List XSR1dSectorInfo) :
    (XSR1d.build_sector_map sectors).length = buildLen sectors :=
  bsm_fold_length sectors []

theorem le_foldl_max (g : XSR1dSectorInfo → Nat) :
    ∀ (l : List XSR1dSectorInfo) (a : Nat), a ≤ l.foldl (fun n r => max n (g r)) a
  | [], a => le_refl a
  | s :: t, a => le_trans (by omega : a ≤ max a (g s)) (le_foldl_max g t _)

theorem mem_le_foldl_max (g : XSR1dSectorInfo → Nat) (r : XSR1dSectorInfo) :
    ∀ (l : List XSR1dSectorInfo) (a : Nat), r ∈ l →
      g r ≤ l.foldl (fun n x => max n (g x)) a
  | [], _, h => absurd h (by simp)
  | s :: t, a, h => by
    rcases List.mem_cons.mp h with h | h
    · subst h
      exact le_trans (by omega : g r ≤ max a (g r)) (le_foldl_max g t _)
    · exact mem_le_foldl_max g r t _ h

theorem lsn_lt_buildLen (sectors : List XSR1dSectorInfo) (r : XSR1dSectorInfo)
    (h : r ∈ sectors) : r.lsn < buildLen sectors := by
  have h1 := mem_le_foldl_max (fun x => x.lsn + 1) r sectors 0 h
  simp only [] at h1
  unfold buildLen
  omega

theorem foldl_max_succ :
    ∀ (l : List XSR1dSectorInfo) (a : Nat),
      l.foldl (fun n r => max n (r.lsn + 1)) (a + 1) =
        l.foldl (fun n r => max n r.lsn) a + 1
  | [], _ => rfl
  | s :: t, a => by
    rw [List.foldl_cons, List.foldl_cons]
    have h1 : max (a + 1) (s.lsn + 1) = max a s.lsn + 1 := by omega
    rw [h1]
    exact foldl_max_succ t _

theorem buildLen_eq_maxLsn (sectors : List XSR1dSectorInfo) (h : sectors ≠ []) :
    buildLen sectors = maxLsn sectors + 1 := by
  cases sectors with
  | nil => exact absurd rfl h
  | cons s t =>
    unfold buildLen maxLsn
    rw [List.foldl_cons, List.foldl_cons]
    have h0 : max 0 (s.lsn + 1) = max 0 s.lsn + 1 := by omega
    rw [h0]
    exact foldl_max_succ t _

/-! Lemmas about the per-slot winner selection (`sorted(...)` by
`(block_version, sector_start)` and taking the first element). -/

theorem keyLe_refl (a : XSR1dSectorInfo) : XSR1d.keyLe a a := by
  unfold XSR1d.keyLe XSR1d.keyLt
  omega

theorem sortByKey_perm (l : List XSR1dSectorInfo) : (XSR1d.sortByKey l).Perm l :=
  List.perm_insertionSort _ l

theorem sortByKey_head_min (l : List XSR1dSectorInfo) (w : XSR1dSectorInfo)
    (rest : List XSR1dSectorInfo) (h : XSR1d.sortByKey l = w :: rest) :
    ∀ r ∈ l, XSR1d.keyLe w r := by
  intro r hr
  have hsorted : List.Sorted XSR1d.keyLe (XSR1d.sortByKey l) :=
    List.sorted_insertionSort XSR1d.keyLe l
  rw [h] at hsorted
  have hr' : r ∈ w :: rest := by
    have hm : r ∈ XSR1d.sortByKey l := (sortByKey_perm l).mem_iff.mpr hr
    rwa [h] at hm
  rcases List.mem_cons.mp hr' with h1 | h1
  · subst h1
    exact keyLe_refl r
  · exact List.rel_of_sorted_cons hsorted r h1

theorem skey_eq_of_keyLe_both (w1 w2 : XSR1dSectorInfo)
    (h1 : XSR1d.keyLe w1 w2) (h2 : XSR1d.keyLe w2 w1) :
    XSR1d.skey w1 = XSR1d.skey w2 := by
  unfold XSR1d.keyLe XSR1d.keyLt at h1 h2
  refine Prod.ext ?_ ?_ <;> omega

theorem sortByKey_eq_nil_iff (l : List XSR1dSectorInfo) :
    XSR1d.sortByKey l = [] ↔ l = [] := by
  constructor
  · intro h
    have hp := sortByKey_perm l
    rw [h] at hp
    exact hp.symm.eq_nil
  · intro h
    subst h
    rfl

theorem slotBytes_perm (data : List Nat) (l1 l2 : List XSR1dSectorInfo) (h : l1.Perm l2) :
    XSR1d.slotBytes data (some l1) = XSR1d.slotBytes data (some l2) := by
  cases h1 : XSR1d.sortByKey l1 with
  | nil =>
    have e1 : l1 = [] := (sortByKey_eq_nil_iff l1).mp h1
    have e2 : l2 = [] := by
      subst e1
      exact h.symm.eq_nil
    subst e1
    subst e2
    rfl
  | cons w1 r1 =>
    cases h2 : XSR1d.sortByKey l2 with
    | nil =>
      exfalso
      have e2 : l2 = [] := (sortByKey_eq_nil_iff l2).mp h2
      subst e2
      have e1 : l1 = [] := h.eq_nil
      rw [e1] at h1
      simp [XSR1d.sortByKey, List.insertionSort] at h1
    | cons w2 r2 =>
      have hw1 : w1 ∈ l1 :=
        (sortByKey_perm l1).mem_iff.mp (by rw [h1]; exact List.mem_cons_self _ _)
      have hw2 : w2 ∈ l2 :=
        (sortByKey_perm l2).mem_iff.mp (by rw [h2]; exact List.mem_cons_self _ _)
      have k1 : XSR1d.keyLe w2 w1 := sortByKey_head_min l2 w2 r2 h2 w1 (h.mem_iff.mp hw1)
      have k2 : XSR1d.keyLe w1 w2 := sortByKey_head_min l1 w1 r1 h1 w2 (h.symm.mem_iff.mp hw2)
      have hk : XSR1d.skey w1 = XSR1d.skey w2 := skey_eq_of_keyLe_both w1 w2 k2 k1
      have hs : w1.sector_start = w2.sector_start := congrArg Prod.snd hk
      simp only [XSR1d.slotBytes, h1, h2, hs]

theorem bsm_slot_mem (sectors : List XSR1dSectorInfo)
    (slot : Option (List XSR1dSectorInfo)) (h : slot ∈ XSR1d.build_sector_map sectors) :
    slot = none ∨ ∃ l, slot = some l ∧ l ≠ [] ∧ ∀ r ∈ l, r ∈ sectors := by
  rcases List.mem_iff_getElem.mp h with ⟨i, hi, hgi⟩
  have hchar := bsm_getD sectors i
  rw [List.getD_eq_getElem _ none hi, hgi] at hchar
  by_cases hf : sectors.filter (fun r => r.lsn == i) = []
  · left
    rw [hchar, if_pos hf]
  · right
    refine ⟨sectors.filter (fun r => r.lsn == i), by rw [hchar, if_neg hf], hf, ?_⟩
    intro r hr
    exact List.mem_of_mem_filter hr

theorem slotBytes_length (data : List Nat) (sectors : List XSR1dSectorInfo)
    (hin : InBounds data sectors) (slot : Option (List XSR1dSectorInfo))
    (h : slot ∈ XSR1d.build_sector_map sectors) :
    (XSR1d.slotBytes data slot).length = 512 := by
  rcases bsm_slot_mem sectors slot h with h0 | ⟨l, hl, hne, hsub⟩
  · subst h0
    exact List.length_replicate _ _
  · subst hl
    cases h1 : XSR1d.sortByKey l with
    | nil => exact absurd ((sortByKey_eq_nil_iff l).mp h1) hne
    | cons w rest =>
      have hw : w ∈ l :=
        (sortByKey_perm l).mem_iff.mp (by rw [h1]; exact List.mem_cons_self _ _)
      obtain ⟨hw0, hw512⟩ := hin w (hsub w hw)
      simp only [XSR1d.slotBytes, h1, XSR1d.SECTOR_SIZE, Nat.cast_ofNat]
      exact pySlice_sector_length data w.sector_start hw0 hw512

theorem rearrange_length (data : List Nat) (sectors : List XSR1dSectorInfo)
    (hin : InBounds data sectors) :
    (XSR1d.rearrange_data data (XSR1d.build_sector_map sectors)).length =
      512 * (XSR1d.build_sector_map sectors).length := by
  unfold XSR1d.rearrange_data
  exact flatten_map_length _ _ (fun slot hs => slotBytes_length data sectors hin slot hs)

theorem rearrange_slot (data : List Nat) (sectors : List XSR1dSectorInfo)
    (hin : InBounds data sectors) (j : Nat)
    (hj : j < (XSR1d.build_sector_map sectors).length) :
    ((XSR1d.rearrange_data data (XSR1d.build_sector_map sectors)).drop (512 * j)).take 512 =
      XSR1d.slotBytes data ((XSR1d.build_sector_map sectors).getD j none) := by
  unfold XSR1d.rearrange_data
  exact flatten_map_pos _ _ none j (fun slot hs => slotBytes_length data sectors hin slot hs) hj

/-! Lemmas about the metadata scan: which records it can produce, and that
every produced record's source range lies inside the input buffer. -/

theorem parse_single_some (oob : List Nat) (bi : XSR1dBlockInfo) (s : Int)
    (r : XSR1dSectorInfo) (h : XSR1dSectorInfo.parse_single oob bi s = some r) :
    r.block_info = bi ∧ r.sector_start = s ∧ s ≠ bi.block_start ∧
      pySlice oob 2 5 ≠ [0xFF, 0xFF, 0xFF] := by
  simp only [XSR1dSectorInfo.parse_single] at h
  split at h
  · exact absurd h (by simp)
  · rename_i h1
    split at h
    · exact absurd h (by simp)
    · rename_i h2
      cases Option.some.inj h
      exact ⟨rfl, rfl, h2, h1⟩

theorem parse_page_mem (spare : List Nat) (bi : XSR1dBlockInfo) (ps : Int)
    (r : XSR1dSectorInfo) (h : r ∈ XSR1dSectorInfo.parse_page spare bi ps) :
    r.block_info = bi ∧ r.sector_start ≠ bi.block_start ∧
      ∃ i : Nat, i < 4 ∧ r.sector_start = ps + (i : Int) * 512 := by
  unfold XSR1dSectorInfo.parse_page at h
  rcases List.mem_filterMap.mp h with ⟨i, hi, hps⟩
  obtain ⟨hb, hs, hne, -⟩ := parse_single_some _ _ _ _ hps
  refine ⟨hb, ?_, i, List.mem_range.mp hi, ?_⟩
  · rw [hs]
    exact hne
  · rw [hs]
    norm_num [XSR1dSectorInfo.SECTOR_SIZE]

theorem parse_next_block_mem (data : List Nat) (bs : Int) (r : XSR1dSectorInfo)
    (h : r ∈ XSR1d.parse_next_block data bs) :
    r.block_info.block_start = bs ∧ r.sector_start ≠ bs ∧
      ∃ i : Nat, i < 64 ∧ ∃ j : Nat, j < 4 ∧
        r.sector_start = bs + (i : Int) * 2112 + (j : Int) * 512 := by
  simp only [XSR1d.parse_next_block] at h
  rcases List.mem_flatMap.mp h with ⟨i, hi, hpage⟩
  obtain ⟨hb, hne, j, hj, hs⟩ := parse_page_mem _ _ _ _ hpage
  have hilt : i < 64 := List.mem_range.mp hi
  refine ⟨?_, hne, i, hilt, j, hj, ?_⟩
  · rw [hb]
    rfl
  · rw [hs]
    norm_num [XSR1d.PAGE_SIZE, XSR1d.OOB_SIZE]

theorem parse_next_block_bounds (data : List Nat) (bs : Int) (r : XSR1dSectorInfo)
    (h : r ∈ XSR1d.parse_next_block data bs) :
    bs ≤ r.sector_start ∧ r.sector_start + 512 ≤ bs + 135168 := by
  obtain ⟨-, -, i, hi, j, hj, hs⟩ := parse_next_block_mem data bs r h
  rw [hs]
  have hi' : (i : Int) ≤ 63 := by exact_mod_cast Nat.le_of_lt_succ hi
  have hj' : (j : Int) ≤ 3 := by exact_mod_cast Nat.le_of_lt_succ hj
  have hi0 : (0 : Int) ≤ (i : Int) := Int.ofNat_nonneg i
  have hj0 : (0 : Int) ≤ (j : Int) := Int.ofNat_nonneg j
  constructor <;> nlinarith

theorem read_metadata_mem (data : List Nat) (r : XSR1dSectorInfo)
    (h : r ∈ XSR1d.read_metadata data) :
    ∃ k : Nat, k < ((data.length : Int) - XSR1d.find_start data).toNat / 135168 ∧
      r ∈ XSR1d.parse_next_block data (XSR1d.find_start data + (k : Int) * 135168) := by
  have e1 : XSR1d.BLOCK_SIZE * (XSR1d.PAGE_SIZE + XSR1d.OOB_SIZE) = 135168 := rfl
  have e2 : (XSR1d.BLOCK_SIZE : Int) * ((XSR1d.PAGE_SIZE : Int) + (XSR1d.OOB_SIZE : Int)) =
      135168 := by
    norm_num [XSR1d.BLOCK_SIZE, XSR1d.PAGE_SIZE, XSR1d.OOB_SIZE]
  simp only [XSR1d.read_metadata, e1, e2] at h
  rcases List.mem_flatMap.mp h with ⟨k, hk, hr⟩
  exact ⟨k, List.mem_range.mp hk, hr⟩

theorem read_metadata_in_bounds (data : List Nat) (hfind : 0 ≤ XSR1d.find_start data) :
    InBounds data (XSR1d.read_metadata data) := by
  intro r hr
  obtain ⟨k, hk, hrb⟩ := read_metadata_mem data r hr
  obtain ⟨hlo, hhi⟩ := parse_next_block_bounds data _ r hrb
  have h1 : (k + 1) * 135168 ≤ ((data.length : Int) - XSR1d.find_start data).toNat :=
    (Nat.le_div_iff_mul_le (by norm_num)).mp (Nat.succ_le_of_lt hk)
  omega

/-! Concrete facts about `c4data`, the minimal one-block dump. -/

theorem c4data_len : c4data.length = 135168 := by
  rw [show c4data = [0x58, 0x53, 0x52, 0x31, 0x64] ++ List.replicate 135163 0 from rfl,
    List.length_append, List.length_replicate]
  rfl

theorem c4data_find : XSR1d.find_start c4data = 0 := rfl

theorem parse_page_spare_zero (bi : XSR1dBlockInfo) (bs : Int) (hbi : bi.block_start = bs) :
    (⟨0, bi, bs + 512⟩ : XSR1dSectorInfo) ∈
      XSR1dSectorInfo.parse_page (List.replicate 64 0) bi bs := by
  have hoob : pySlice (List.replicate 64 (0 : Nat)) 16 32 = List.replicate 16 0 := by decide
  have htag : pySlice (List.replicate 16 (0 : Nat)) 2 5 = [0, 0, 0] := by decide
  have hlsn : intFromBytesLE [0, 0, 0] = 0 := by decide
  have hsingle : XSR1dSectorInfo.parse_single (pySlice (List.replicate 64 (0 : Nat)) 16 32) bi
      (bs + 512) = some ⟨0, bi, bs + 512⟩ := by
    rw [hoob]
    simp only [XSR1dSectorInfo.parse_single, htag]
    rw [if_neg (by decide), if_neg (by rw [hbi]; omega), hlsn]
  unfold XSR1dSectorInfo.parse_page
  apply List.mem_filterMap.mpr
  refine ⟨1, by decide, ?_⟩
  exact hsingle

theorem parse_next_block_ne_nil (data : List Nat) (bs : Int)
    (hspare : pySlice data (bs + 2048) (bs + 2112) = List.replicate 64 0) :
    XSR1d.parse_next_block data bs ≠ [] := by
  have hpage := parse_page_spare_zero
    (XSR1dBlockInfo.parse (pySlice data bs (bs + (XSR1d.PAGE_SIZE : Int))) bs) bs rfl
  have hmem : (⟨0, XSR1dBlockInfo.parse (pySlice data bs (bs + (XSR1d.PAGE_SIZE : Int))) bs,
      bs + 512⟩ : XSR1dSectorInfo) ∈ XSR1d.parse_next_block data bs := by
    simp only [XSR1d.parse_next_block]
    apply List.mem_flatMap.mpr
    refine ⟨0, by decide, ?_⟩
    have e3 : bs + ((0 : Nat) : Int) * ((XSR1d.PAGE_SIZE : Int) + (XSR1d.OOB_SIZE : Int)) +
        (XSR1d.PAGE_SIZE : Int) + (XSR1d.OOB_SIZE : Int) = bs + 2112 := by
      norm_num [XSR1d.PAGE_SIZE, XSR1d.OOB_SIZE]
      ring
    have e2 : bs + ((0 : Nat) : Int) * ((XSR1d.PAGE_SIZE : Int) + (XSR1d.OOB_SIZE : Int)) +
        (XSR1d.PAGE_SIZE : Int) = bs + 2048 := by
      norm_num [XSR1d.PAGE_SIZE, XSR1d.OOB_SIZE]
    have e1 : bs + ((0 : Nat) : Int) * ((XSR1d.PAGE_SIZE : Int) + (XSR1d.OOB_SIZE : Int)) = bs := by
      norm_num
    rw [e3, e2, e1, hspare]
    exact hpage
  exact List.ne_nil_of_mem hmem

theorem c4data_spare : pySlice c4data 2048 2112 = List.replicate 64 0 := by
  have h1 : pyIdx c4data.length 2112 = 2112 := by
    rw [c4data_len, pyIdx_of_nonneg _ _ (by norm_num)]
    decide
  have h2 : pyIdx c4data.length 2048 = 2048 := by
    rw [c4data_len, pyIdx_of_nonneg _ _ (by norm_num)]
    decide
  unfold pySlice
  rw [h1, h2]
  rw [show c4data = [0x58, 0x53, 0x52, 0x31, 0x64] ++ List.replicate 135163 0 from rfl]
  rw [List.take_append_eq_append_take, List.take_of_length_le (by norm_num),
    List.take_replicate, List.drop_append_eq_append_drop,
    List.drop_eq_nil_of_le (by norm_num), List.drop_replicate]
  norm_num

theorem c4data_rm : XSR1d.read_metadata c4data = XSR1d.parse_next_block c4data 0 := by
  have e1 : XSR1d.BLOCK_SIZE * (XSR1d.PAGE_SIZE + XSR1d.OOB_SIZE) = 135168 := rfl
  have e2 : ((((135168 : Nat) : Int)) - 0).toNat / 135168 = 1 := by decide
  simp only [XSR1d.read_metadata, e1, c4data_find, c4data_len, e2]
  rw [show List.range 1 = [0] from rfl]
  simp only [List.flatMap_cons, List.flatMap_nil, List.append_nil]
  norm_num

theorem c4data_rm_ne : XSR1d.read_metadata c4data ≠ [] := by
  rw [c4data_rm]
  exact parse_next_block_ne_nil c4data 0 (by simpa using c4data_spare)

/-- C4: on every input on which the reconstruction succeeds (the signature is
found; per C2 the signature-missing case is the failure case) and at least one
sector record is observed, the output length is exactly
(max observed LSN + 1) * 512 bytes. -/
theorem C4_output_length (data : List Nat) (hsig : 0 ≤ XSR1d.find_start data)
    (hne : XSR1d.read_metadata data ≠ []) :
    (XSR1d.reconstruct data).length = (maxLsn (XSR1d.read_metadata data) + 1) * 512 := by
  unfold XSR1d.reconstruct
  rw [rearrange_length data _ (read_metadata_in_bounds data hsig), bsm_length,
    buildLen_eq_maxLsn _ hne]
  ring

/-- Witness for C4 at the concrete one-block dump `c4data`. -/
theorem C4_output_length_witness :
    0 ≤ XSR1d.find_start c4data ∧ XSR1d.read_metadata c4data ≠ [] ∧
      (XSR1d.reconstruct c4data).length = (maxLsn (XSR1d.read_metadata c4data) + 1) * 512 :=
  ⟨le_of_eq c4data_find.symm, c4data_rm_ne,
    C4_output_length c4data (le_of_eq c4data_find.symm) c4data_rm_ne⟩

/-- C5: the scan never produces a record for the first sector of a block and
never produces a record whose 3-byte tag is the all-0xFF sentinel; the
physical-offset exclusion holds for every block and page of every input
(stated for the single-tag reader, the per-block scanner and the whole-image
scanner). -/
theorem C5_scan_exclusions :
    (∀ (oob : List Nat) (bi : XSR1dBlockInfo) (s : Int) (r : XSR1dSectorInfo),
      XSR1dSectorInfo.parse_single oob bi s = some r →
        r.block_info = bi ∧ r.sector_start ≠ r.block_info.block_start ∧
          pySlice oob 2 5 ≠ [0xFF, 0xFF, 0xFF])
    ∧ (∀ (data : List Nat) (bs : Int), ∀ r ∈ XSR1d.parse_next_block data bs,
        r.sector_start ≠ r.block_info.block_start)
    ∧ (∀ data : List Nat, ∀ r ∈ XSR1d.read_metadata data,
        r.sector_start ≠ r.block_info.block_start) := by
  have hp : ∀ (data : List Nat) (bs : Int), ∀ r ∈ XSR1d.parse_next_block data bs,
      r.sector_start ≠ r.block_info.block_start := by
    intro data bs r h
    obtain ⟨hb, hne, -⟩ := parse_next_block_mem data bs r h
    rw [hb]
    exact hne
  refine ⟨?_, hp, ?_⟩
  · intro oob bi s r h
    obtain ⟨hb, hs, hne, htag⟩ := parse_single_some oob bi s r h
    refine ⟨hb, ?_, htag⟩
    rw [hb, hs]
    exact hne
  · intro data r h
    obtain ⟨k, -, hrb⟩ := read_metadata_mem data r h
    exact hp data _ r hrb

/-- C6 amended: the block scanner passes the first page's data area to the
block-header reader, but it also invokes the sector-tag reader on every one of
the 64 page+spare units including the first (header) page; a record never maps
the sector at the block start offset, but records can and do originate from
the spare region of the first page (for its 2nd-4th sectors). -/
theorem C6_block_scan_amended :
    (∀ (data : List Nat) (bs : Int), ∀ r ∈ XSR1d.parse_next_block data bs,
      r.sector_start ≠ bs)
    ∧ (∃ r ∈ XSR1d.parse_next_block ([] : List Nat) 0,
        0 ≤ r.sector_start ∧ r.sector_start < 2048) := by
  constructor
  · intro data bs r h
    obtain ⟨-, hne, -⟩ := parse_next_block_mem data bs r h
    exact hne
  · exact ⟨⟨0, ⟨0, 0, 0⟩, 512⟩, by decide, by decide, by decide⟩

/-- C7: every LSN slot in range for which no record exists yields 512 bytes of
0xFF in the output, at the slot's position (records are assumed in bounds,
which the scanner guarantees, see `read_metadata_in_bounds`). -/
theorem C7_missing_lsn_filler (data : List Nat) (sectors : List XSR1dSectorInfo) (j : Nat)
    (hin : InBounds data sectors)
    (hj : j < (XSR1d.build_sector_map sectors).length)
    (habs : ∀ r ∈ sectors, r.lsn ≠ j) :
    ((XSR1d.rearrange_data data (XSR1d.build_sector_map sectors)).drop (512 * j)).take 512 =
      List.replicate 512 0xFF := by
  rw [rearrange_slot data sectors hin j hj, bsm_getD]
  have hf : sectors.filter (fun r => r.lsn == j) = [] :=
    List.filter_eq_nil_iff.mpr (fun r hr => by simpa using habs r hr)
  rw [if_pos hf]
  rfl

set_option maxRecDepth 10000 in
/-- Witness for C7: LSN 0 is absent, the output's first sector is all 0xFF. -/
theorem C7_missing_lsn_filler_witness :
    InBounds (List.replicate 512 3) [⟨1, ⟨0, 0, 50⟩, 0⟩] ∧
      0 < (XSR1d.build_sector_map [⟨1, ⟨0, 0, 50⟩, 0⟩]).length ∧
      (∀ r ∈ [(⟨1, ⟨0, 0, 50⟩, 0⟩ : XSR1dSectorInfo)], r.lsn ≠ 0) ∧
      ((XSR1d.rearrange_data (List.replicate 512 3)
          (XSR1d.build_sector_map [⟨1, ⟨0, 0, 50⟩, 0⟩])).drop (512 * 0)).take 512 =
        List.replicate 512 0xFF :=
  ⟨by decide, by decide, by decide,
    C7_missing_lsn_filler (List.replicate 512 3) [⟨1, ⟨0, 0, 50⟩, 0⟩] 0 (by decide) (by decide)
      (by decide)⟩

/-- C8: an LSN slot with exactly one candidate whose byte range lies in the
buffer yields, at its position in the output, exactly the 512 input bytes
starting at the candidate's physical offset. -/
theorem C8_single_candidate (data : List Nat) (sectors : List XSR1dSectorInfo)
    (j : Nat) (r : XSR1dSectorInfo)
    (hin : InBounds data sectors)
    (hfil : sectors.filter (fun x => x.lsn == j) = [r]) :
    ((XSR1d.rearrange_data data (XSR1d.build_sector_map sectors)).drop (512 * j)).take 512 =
      (data.drop r.sector_start.toNat).take 512 := by
  have hrf : r ∈ sectors.filter (fun x => x.lsn == j) := by
    rw [hfil]
    exact List.mem_cons_self _ _
  have hrmem : r ∈ sectors := List.mem_of_mem_filter hrf
  have hrlsn : r.lsn = j := by simpa using (List.mem_filter.mp hrf).2
  have hj : j < (XSR1d.build_sector_map sectors).length := by
    rw [bsm_length]
    have hlt := lsn_lt_buildLen sectors r hrmem
    omega
  obtain ⟨h0, h512⟩ := hin r hrmem
  rw [rearrange_slot data sectors hin j hj, bsm_getD, if_neg (by rw [hfil]; simp), hfil]
  have hslot : XSR1d.slotBytes data (some [r]) =
      pySlice data r.sector_start (r.sector_start + (XSR1d.SECTOR_SIZE : Int)) := rfl
  rw [hslot]
  exact pySlice_sector data r.sector_start h0 h512

set_option maxRecDepth 10000 in
/-- Witness for C8 at a single in-bounds record with offset 88. -/
theorem C8_single_candidate_witness :
    InBounds (List.replicate 600 4) [⟨0, ⟨0, 0, 77⟩, 88⟩] ∧
      ([(⟨0, ⟨0, 0, 77⟩, 88⟩ : XSR1dSectorInfo)].filter (fun x => x.lsn == 0) =
        [⟨0, ⟨0, 0, 77⟩, 88⟩]) ∧
      ((XSR1d.rearrange_data (List.replicate 600 4)
          (XSR1d.build_sector_map [⟨0, ⟨0, 0, 77⟩, 88⟩])).drop (512 * 0)).take 512 =
        ((List.replicate 600 4).drop (88 : Int).toNat).take 512 :=
  ⟨by decide, by decide,
    C8_single_candidate (List.replicate 600 4) [⟨0, ⟨0, 0, 77⟩, 88⟩] 0 ⟨0, ⟨0, 0, 77⟩, 88⟩
      (by decide) (by decide)⟩

/-- C9: conflict resolution is independent of the order in which the records
reach the map builder: permuting the record list leaves the assembled output
byte-identical. -/
theorem C9_order_independence (data : List Nat) (s1 s2 : List XSR1dSectorInfo)
    (h : s1.Perm s2) :
    XSR1d.rearrange_data data (XSR1d.build_sector_map s1) =
      XSR1d.rearrange_data data (XSR1d.build_sector_map s2) := by
  have hlen : (XSR1d.build_sector_map s1).length = (XSR1d.build_sector_map s2).length := by
    rw [bsm_length, bsm_length]
    unfold buildLen
    haveI : RightCommutative (fun (n : Nat) (r : XSR1dSectorInfo) => max n (r.lsn + 1)) :=
      ⟨fun b a1 a2 => by omega⟩
    exact h.foldl_eq 0
  unfold XSR1d.rearrange_data
  congr 1
  apply List.ext_getElem
  · rw [List.length_map, List.length_map, hlen]
  · intro n h1 h2
    simp only [List.getElem_map]
    have hn1 : n < (XSR1d.build_sector_map s1).length := by simpa using h1
    have hn2 : n < (XSR1d.build_sector_map s2).length := by simpa using h2
    have g1 := bsm_getD s1 n
    have g2 := bsm_getD s2 n
    rw [List.getD_eq_getElem _ none hn1] at g1
    rw [List.getD_eq_getElem _ none hn2] at g2
    rw [g1, g2]
    have hfp : (s1.filter (fun r => r.lsn == n)).Perm (s2.filter (fun r => r.lsn == n)) :=
      h.filter _
    by_cases hf : s1.filter (fun r => r.lsn == n) = []
    · have hf2 : s2.filter (fun r => r.lsn == n) = [] := by
        rw [hf] at hfp
        exact hfp.symm.eq_nil
      rw [if_pos hf, if_pos hf2]
    · have hf2 : s2.filter (fun r => r.lsn == n) ≠ [] := by
        intro hc
        rw [hc] at hfp
        exact hf hfp.eq_nil
      rw [if_neg hf, if_neg hf2]
      exact slotBytes_perm data _ _ hfp

/-- Witness for C9 at a two-record list and its swap. -/
theorem C9_order_independence_witness :
    ([⟨0, ⟨0, 1, 50⟩, 0⟩, ⟨0, ⟨1, 2, 60⟩, 1⟩] : List XSR1dSectorInfo).Perm
        [⟨0, ⟨1, 2, 60⟩, 1⟩, ⟨0, ⟨0, 1, 50⟩, 0⟩] ∧
      XSR1d.rearrange_data [5, 6, 7]
          (XSR1d.build_sector_map [⟨0, ⟨0, 1, 50⟩, 0⟩, ⟨0, ⟨1, 2, 60⟩, 1⟩]) =
        XSR1d.rearrange_data [5, 6, 7]
          (XSR1d.build_sector_map [⟨0, ⟨1, 2, 60⟩, 1⟩, ⟨0, ⟨0, 1, 50⟩, 0⟩]) :=
  ⟨List.Perm.swap _ _ _,
    C9_order_independence [5, 6, 7] _ _ (List.Perm.swap _ _ _)⟩

/-- C10: every byte of the assembled output is either the 0xFF filler or a
byte present in the input buffer; the assembler never synthesizes any other
value, including when a source range overruns the buffer. -/
theorem C10_output_provenance (data : List Nat) (m : List (Option (List XSR1dSectorInfo)))
    (b : Nat) (hb : b ∈ XSR1d.rearrange_data data m) : b = 0xFF ∨ b ∈ data := by
  unfold XSR1d.rearrange_data at hb
  rcases List.mem_flatten.mp hb with ⟨l, hl, hbl⟩
  rcases List.mem_map.mp hl with ⟨slot, hslot, rfl⟩
  cases slot with
  | none =>
    left
    exact ((List.mem_replicate).mp hbl).2
  | some sector_infos =>
    right
    cases hsort : XSR1d.sortByKey sector_infos with
    | nil =>
      have he : XSR1d.slotBytes data (some sector_infos) = [] := by
        simp only [XSR1d.slotBytes, hsort]
      rw [he] at hbl
      exact absurd hbl (List.not_mem_nil b)
    | cons w rest =>
      have he : XSR1d.slotBytes data (some sector_infos) =
          pySlice data w.sector_start (w.sector_start + (XSR1d.SECTOR_SIZE : Int)) := by
        simp only [XSR1d.slotBytes, hsort]
      rw [he] at hbl
      exact (pySlice_sublist data _ _).subset hbl

set_option maxRecDepth 10000 in
/-- Witness for C10: the filler byte of an empty slot. -/
theorem C10_output_provenance_witness :
    (255 : Nat) ∈ XSR1d.rearrange_data [] [none] ∧
      ((255 : Nat) = 0xFF ∨ (255 : Nat) ∈ ([] : List Nat)) :=
  ⟨by decide, C10_output_provenance [] [none] 255 (by decide)⟩

/-- C3 amended: when the winning record's byte range extends past the end of
the input buffer, the assembler emits only the available bytes from the
winner's offset to the end of the buffer — fewer than 512 bytes, with no 0xFF
padding — and still continues processing the remaining LSN slots. -/
theorem C3_overrun_truncates (data : List Nat) (m1 m2 : List (Option (List XSR1dSectorInfo)))
    (l : List XSR1dSectorInfo) (w : XSR1dSectorInfo) (rest : List XSR1dSectorInfo)
    (hsort : XSR1d.sortByKey l = w :: rest)
    (h0 : 0 ≤ w.sector_start)
    (hover : (data.length : Int) < w.sector_start + 512) :
    XSR1d.rearrange_data data (m1 ++ some l :: m2) =
      XSR1d.rearrange_data data m1 ++ data.drop w.sector_start.toNat ++
        XSR1d.rearrange_data data m2
    ∧ (data.drop w.sector_start.toNat).length < 512 := by
  constructor
  · unfold XSR1d.rearrange_data
    rw [List.map_append, List.map_cons, List.flatten_append, List.flatten_cons]
    have he : XSR1d.slotBytes data (some l) = data.drop w.sector_start.toNat := by
      have h1 : XSR1d.slotBytes data (some l) =
          pySlice data w.sector_start (w.sector_start + (XSR1d.SECTOR_SIZE : Int)) := by
        simp only [XSR1d.slotBytes, hsort]
      rw [h1]
      refine pySlice_eq_drop data _ _ h0 ?_
      have e : ((XSR1d.SECTOR_SIZE : Nat) : Int) = 512 := by norm_num [XSR1d.SECTOR_SIZE]
      rw [e]
      omega
    rw [he, List.append_assoc]
  · rw [List.length_drop]
    omega

/-- Witness for C3's amended statement at the 100-byte buffer `c3data`. -/
theorem C3_overrun_truncates_witness :
    XSR1d.sortByKey [c3rec] = [c3rec] ∧ (0 : Int) ≤ c3rec.sector_start ∧
      ((c3data.length : Int) < c3rec.sector_start + 512) ∧
      (XSR1d.rearrange_data c3data ([] ++ some [c3rec] :: [none]) =
        XSR1d.rearrange_data c3data [] ++ c3data.drop c3rec.sector_start.toNat ++
          XSR1d.rearrange_data c3data [none]
      ∧ (c3data.drop c3rec.sector_start.toNat).length < 512) :=
  ⟨rfl, by decide, by decide,
    C3_overrun_truncates c3data [] [none] [c3rec] c3rec [] rfl (by decide) (by decide)⟩

/-- Witness for C5 at a concrete successful tag parse. -/
theorem C5_scan_exclusions_witness :
    XSR1dSectorInfo.parse_single (List.replicate 16 0) ⟨0, 0, 99⟩ 5 =
        some ⟨0, ⟨0, 0, 99⟩, 5⟩ ∧
      ((⟨0, ⟨0, 0, 99⟩, 5⟩ : XSR1dSectorInfo).block_info = ⟨0, 0, 99⟩ ∧
        (⟨0, ⟨0, 0, 99⟩, 5⟩ : XSR1dSectorInfo).sector_start ≠
          (⟨0, ⟨0, 0, 99⟩, 5⟩ : XSR1dSectorInfo).block_info.block_start ∧
        pySlice (List.replicate 16 0) 2 5 ≠ [0xFF, 0xFF, 0xFF]) :=
  ⟨by decide,
    C5_scan_exclusions.1 (List.replicate 16 0) ⟨0, 0, 99⟩ 5 ⟨0, ⟨0, 0, 99⟩, 5⟩ (by decide)⟩

/-- Witness for C6's amended statement at a concrete block scan. -/
theorem C6_block_scan_amended_witness :
    (⟨0, ⟨0, 0, 0⟩, 512⟩ : XSR1dSectorInfo) ∈ XSR1d.parse_next_block ([] : List Nat) 0 ∧
      (⟨0, ⟨0, 0, 0⟩, 512⟩ : XSR1dSectorInfo).sector_start ≠ 0 :=
  ⟨by decide, C6_block_scan_amended.1 [] 0 ⟨0, ⟨0, 0, 0⟩, 512⟩ (by decide)⟩
